import Mathlib

/-!
Shallow embedding of the app-runner stats/build server (`server/index.js`)
and proofs about its specified behaviour.

Conventions used throughout:
* SQLite tables are modelled as pure values: the `launches` table as a map
  `String → Option Nat` (a row `(project_id, count)` is `some count`, an
  absent row is `none`), the `ratings` table as an append-ordered list of
  `(project_id, rating)` pairs, and the `sessions` table as a list of rows.
* A JavaScript number obtained from `Number(x)` is `Option ℚ`: `none`
  models `NaN`, `some q` a finite value.
* HTTP responses are small inductive types whose constructors carry the
  status codes of the taxonomy (400 invalid input, 404 not found,
  409 conflict, and the success payload).
-/

namespace AppRunner

/-! ## Launch counters (`launches` table, `incLaunch`, `POST /api/launch/:id`) -/

/-- The `launches` table: `project_id TEXT PRIMARY KEY, count INTEGER`.
`none` means no row for that id. -/
abbrev Launches : Type := String → Option Nat

/-- Row count as read back by the handler: `newValRow ? Number(newValRow.count || 0) : 0`. -/
def launchCount (t : Launches) (id : String) : Nat :=
  match t id with
  | some c => c
  | none => 0

/-- The prepared statement `incLaunch`:
`INSERT INTO launches(project_id,count) VALUES(?,1)
 ON CONFLICT(project_id) DO UPDATE SET count = count + 1`.
A single atomic upsert-increment: no row inserts `1`, an existing row
becomes `count + 1`; both equal `launchCount t id + 1`. -/
def incLaunch (id : String) (t : Launches) : Launches :=
  fun y => if y = id then some (launchCount t id + 1) else t y

/-- Response of `POST /api/launch/:id`. -/
inductive LaunchResp
  /-- 400 `Invalid id` (only when `!id`, i.e. the id is empty). -/
  | invalidId
  /-- 200 `success: true` with the new count read back from the table. -/
  | ok (launches : Nat)
deriving DecidableEq

/-- Handler of `POST /api/launch/:id`: reject an empty id, otherwise run
`incLaunch`, read the row back with `getLaunch` and answer with the new
count. No other validation of the id is performed. -/
def launchHandler (id : String) (t : Launches) : LaunchResp × Launches :=
  if id = "" then (.invalidId, t)
  else
    let t2 := incLaunch id t
    (.ok (launchCount t2 id), t2)

/-- A sequence of `POST /api/launch/:id` calls applied to the table,
arbitrarily interleaving ids. -/
def applyLaunchOps (ops : List String) (t : Launches) : Launches :=
  ops.foldl (fun s id => (launchHandler id s).2) t

/-! ## Ratings (`ratings` table, `insertRating`, `POST /api/rate/:id`) -/

/-- The `ratings` table: append-only rows `(project_id, rating)` in
insertion order (the AUTOINCREMENT id is the list position). -/
abbrev RatingsTable : Type := List (String × ℚ)

/-- The per-project count computed by the handler:
`SELECT COUNT(*) as c FROM ratings WHERE project_id = ?`. -/
def ratingCountFor (id : String) (t : RatingsTable) : Nat :=
  (t.filter (fun r => r.1 == id)).length

/-- All rating values stored for an id, in insertion order. -/
def samplesFor (id : String) (t : RatingsTable) : List ℚ :=
  (t.filter (fun r => r.1 == id)).map (fun r => r.2)

/-- The SQL aggregate of `getRatingSummary`:
`AVG(rating)` over the id's group, i.e. sum divided by row count. -/
def ratingAvg (id : String) (t : RatingsTable) : ℚ :=
  (samplesFor id t).sum / (samplesFor id t).length

/-- Arithmetic mean, written from the spec's words ("arithmetic mean of
all accepted values"), to be compared with the SQL aggregate. -/
def arithMean (xs : List ℚ) : ℚ := xs.sum / xs.length

/-- Response of `POST /api/rate/:id`. -/
inductive RateResp
  /-- 400 `Invalid payload`. -/
  | invalid
  /-- 200 `success: true` with the id's row count after insertion. -/
  | ok (ratingCount : Nat)
deriving DecidableEq

/-- Handler of `POST /api/rate/:id`: the guard
`!id || Number.isNaN(rating) || rating < 0 || rating > 5` answers 400 and
leaves the table untouched; otherwise `insertRating` appends one row and
the handler answers with the id's new `COUNT(*)`. -/
def rateHandler (id : String) (v : Option ℚ) (t : RatingsTable) : RateResp × RatingsTable :=
  if id = "" then (.invalid, t)
  else
    match v with
    | none => (.invalid, t)
    | some q =>
      if q < 0 ∨ 5 < q then (.invalid, t)
      else
        let t2 := t ++ [(id, q)]
        (.ok (ratingCountFor id t2), t2)

/-- A sequence of `POST /api/rate/:id` calls applied to the table. -/
def applyRateOps (reqs : List (String × Option ℚ)) (t : RatingsTable) : RatingsTable :=
  reqs.foldl (fun s r => (rateHandler r.1 r.2 s).2) t

/-- The values among `reqs` that the handler accepts for `id`:
requests addressed to `id` whose value is a number in `[0,5]`. -/
def acceptedFor (id : String) (reqs : List (String × Option ℚ)) : List ℚ :=
  reqs.filterMap (fun r =>
    match r.2 with
    | some q => if r.1 = id ∧ 0 ≤ q ∧ q ≤ 5 then some q else none
    | none => none)

/-! ## Sessions (`sessions` table) and server state -/

/-- A row of the `sessions` table; only the soft-close column matters for
the online count (`disconnected_at TEXT DEFAULT NULL`). -/
structure SessionRow where
  sid : String
  disconnectedAt : Option Nat
deriving DecidableEq

/-- The prepared statement `countOnlineSessions`:
`SELECT COUNT(*) FROM sessions WHERE disconnected_at IS NULL`. -/
def countOnline (rows : List SessionRow) : Nat :=
  (rows.filter (fun r => r.disconnectedAt.isNone)).length

/-! ## Legacy `state.json` migration -/

/-- The parsed shape of a legacy `state.json` file: `launches` is an
object of id to count entries, `ratings` an object of id to an array of
values (`Object.entries` yields them in order). -/
structure LegacyState where
  launches : List (String × Nat)
  ratings : List (String × List ℚ)

/-- Counter import: for each legacy entry run
`INSERT OR REPLACE INTO launches (project_id, count) VALUES (?,?)`,
i.e. overwrite the row with the legacy value. -/
def importCounters (es : List (String × Nat)) (t : Launches) : Launches :=
  es.foldl (fun s kv => fun y => if y = kv.1 then some kv.2 else s y) t

/-- The rating rows a legacy state contributes, in the iteration order of
the migration loop. -/
def legacySamples (es : List (String × List ℚ)) : List (String × ℚ) :=
  es.flatMap (fun kv => kv.2.map (fun q => (kv.1, q)))

/-- Rating import: for each legacy entry and each value run
`INSERT INTO ratings (project_id,rating) VALUES (?,?)` — a plain append. -/
def importRatings (es : List (String × List ℚ)) (t : RatingsTable) : RatingsTable :=
  t ++ legacySamples es

/-- State of the legacy `state.json` file on disk. `unparsable` is a file
whose `JSON.parse` throws, in which case the catch block skips both the
imports and the `unlinkSync`. -/
inductive LegacyFile
  | absent
  | unparsable
  | parsed (s : LegacyState)

/-- The one-time migration block: if the file exists and parses, import
counters (replace) and ratings (append) and then remove the file; a parse
failure leaves everything, including the file, in place. -/
def migrateStartup (f : LegacyFile) (lt : Launches) (rt : RatingsTable) :
    LegacyFile × Launches × RatingsTable :=
  match f with
  | .absent => (.absent, lt, rt)
  | .unparsable => (.unparsable, lt, rt)
  | .parsed s => (.absent, importCounters s.launches lt, importRatings s.ratings rt)

/-- The in-memory state of the running server process. -/
structure ServerState where
  sessions : List SessionRow
  /-- The module-level variable `let runtimeOnline = 0`, reassigned only
  inside the socket connect/disconnect handlers. -/
  runtimeOnline : Nat
  launches : Launches
  ratingsTbl : RatingsTable

/-- The startup sequence (schema creation, `state.json` migration,
prepared statements, `runtimeOnline = 0`): the `CREATE TABLE IF NOT
EXISTS` statements and the migration never touch the `sessions` rows
carried over from the previous run, and no other startup statement
updates them. -/
def startup (priorSessions : List SessionRow) (f : LegacyFile)
    (lt : Launches) (rt : RatingsTable) : ServerState :=
  let m := migrateStartup f lt rt
  { sessions := priorSessions
    runtimeOnline := 0
    launches := m.2.1
    ratingsTbl := m.2.2 }

/-- The `online` field of `GET /api/stats`: read from the table via
`countOnlineSessions.get()` (the comment in the source calls it the "DB
authoritative count"). -/
def statsEndpointOnline (st : ServerState) : Nat := countOnline st.sessions

/-- The `online` field of the `stats:update` push emitted by the
`app.on` stats-changed handler: it is `runtimeOnline`, the cached
variable, not a fresh table count. -/
def statsChangedPushOnline (st : ServerState) : Nat := st.runtimeOnline

/-- `POST /api/launch/:id` at the level of the whole server state: it
runs the launch handler against the launches table and then emits
`stats-changed`; it never touches `sessions` or `runtimeOnline`. -/
def serverLaunch (id : String) (st : ServerState) : ServerState :=
  { st with launches := (launchHandler id st.launches).2 }

/-! ## Project registry (`GET /api/projects`) -/

/-- Outcome of probing one metadata file (`metadata.json` or
`package.json`): missing, present but failing `JSON.parse`, or parsed
with its (JS-truthy) `name` and `description` fields. -/
inductive MetaFile
  | absent
  | unparsable
  | ok (nameField : Option String) (descrField : Option String)
deriving DecidableEq

/-- One subdirectory of the data directory as seen by the scan. -/
structure DirEntry where
  dirName : String
  metadataFile : MetaFile
  packageFile : MetaFile
  hasDist : Bool
deriving DecidableEq

/-- The project descriptor returned by `GET /api/projects`. -/
structure Project where
  id : String
  name : String
  description : String
  hasDist : Bool
  hasPackageJson : Bool
  path : String
deriving DecidableEq

/-- Per-entry body of the scan's `map`: start from the fallback
`\x7b name: entry.name, description: 'No description' \x7d`; if
`metadata.json` exists, its parsed truthy fields override (a parse
failure is caught per-project and keeps the fallback, and `package.json`
is then not consulted); otherwise a parsed `package.json` may override
the description only. -/
def projectOf (e : DirEntry) : Project :=
  let fallback : String × String := (e.dirName, "No description")
  let meta : String × String :=
    match e.metadataFile with
    | .ok n d => (n.getD fallback.1, d.getD fallback.2)
    | .unparsable => fallback
    | .absent =>
      match e.packageFile with
      | .ok _ d => (fallback.1, d.getD fallback.2)
      | _ => fallback
  { id := e.dirName
    name := meta.1
    description := meta.2
    hasDist := e.hasDist
    hasPackageJson := match e.packageFile with | .absent => false | _ => true
    path := "/apps/" ++ e.dirName ++ "/" }

/-- The scan of `GET /api/projects`: every directory entry is mapped to a
project descriptor (the entries are the subdirectories of `DATA_DIR`). -/
def scanProjects (entries : List DirEntry) : List Project :=
  entries.map projectOf

/-! ## Build orchestration (`POST /api/build/:id`) -/

/-- `sub` occurs as a contiguous run inside `s` (JS `String.includes`). -/
def charsContain (sub : List Char) : List Char → Bool
  | [] => sub.isPrefixOf ([] : List Char)
  | c :: cs => sub.isPrefixOf (c :: cs) || charsContain sub cs

/-- JavaScript `s.includes(sub)`. -/
def jsIncludes (s sub : String) : Bool := charsContain sub.data s.data

/-- The handler's safety check: `projectId.includes('..') || projectId.includes('/')`. -/
def hasUnsafeToken (id : String) : Bool := jsIncludes id ".." || jsIncludes id "/"

/-- Response space of `POST /api/build/:id`, the status taxonomy of the
specification. `conflict` (409) is part of the vocabulary of the claims;
`started` means the handler fell through both guards and called `exec`,
answering 200 or 500 only once that process exits. -/
inductive BuildResp
  | notFound
  | invalidInput
  | conflict
  | started
deriving DecidableEq

/-- The guard sequence of the build handler, in source order: first
`fs.existsSync(projectPath)` (404 when missing), then the `..`/`/` check
(400), otherwise the pipeline is started. -/
def buildCheck (dirExists : Bool) (id : String) : BuildResp :=
  if !dirExists then .notFound
  else if hasUnsafeToken id then .invalidInput
  else .started

/-- The build handler together with its effect on the multiset of
running pipeline processes (`inflight` counts the `exec` processes per
id): the handler consults no in-flight bookkeeping, and every `started`
answer spawns one more process for the id. -/
def handleBuild (dirExists : Bool) (id : String) (inflight : String → Nat) :
    BuildResp × (String → Nat) :=
  match buildCheck dirExists id with
  | .started => (.started, fun y => if y = id then inflight y + 1 else inflight y)
  | r => (r, inflight)

/-! ## Concrete states used in closed statements -/

/-- An empty `launches` table. -/
def emptyLaunches : Launches := fun _ => none

/-- The server state right after a restart over a database whose
`sessions` table kept one row with `disconnected_at` NULL from the
previous run, with no legacy file and empty stats tables. -/
def staleStartupState : ServerState :=
  startup [⟨"s1", none⟩] .absent emptyLaunches []

/-- One pipeline process already running for `app1`. -/
def oneInflight : String → Nat := fun y => if y = "app1" then 1 else 0

/-- A directory entry whose `metadata.json` exists but fails to parse. -/
def entryMetaFail : DirEntry := ⟨"proj1", .unparsable, .absent, false⟩

/-- A directory entry with no `metadata.json` and a `package.json` that
fails to parse. -/
def entryPkgFail : DirEntry := ⟨"proj2", .absent, .unparsable, false⟩

/-! ## Helper lemmas -/

theorem launchCount_incLaunch (id : String) (t : Launches) (y : String) :
    launchCount (incLaunch id t) y =
      if y = id then launchCount t id + 1 else launchCount t y := by
  by_cases h : y = id <;> simp [incLaunch, launchCount, h]

theorem launchHandler_count_step (id X : String) (t : Launches) (hX : X ≠ "") :
    launchCount ((launchHandler id t).2) X =
      launchCount t X + if id = X then 1 else 0 := by
  by_cases h0 : id = ""
  · subst h0
    have hne : ("" : String) ≠ X := fun h => hX h.symm
    simp [launchHandler, hne]
  · simp [launchHandler, h0, launchCount_incLaunch]
    by_cases hx : X = id
    · subst hx; simp
    · have h2 : id ≠ X := fun h => hx h.symm
      simp [hx, h2]

theorem applyLaunchOps_count (ops : List String) (t : Launches) (X : String)
    (hX : X ≠ "") :
    launchCount (applyLaunchOps ops t) X = launchCount t X + ops.count X := by
  induction ops generalizing t with
  | nil => simp [applyLaunchOps]
  | cons op ops ih =>
    have hstep := launchHandler_count_step op X t hX
    have : applyLaunchOps (op :: ops) t = applyLaunchOps ops ((launchHandler op t).2) := rfl
    rw [this, ih ((launchHandler op t).2), hstep, List.count_cons]
    by_cases h : op = X
    · simp [h]; omega
    · have h2 : ¬(X == op) = true := by
        simp; exact fun hh => h hh.symm
      simp [h, h2]

theorem ratingCountFor_append (id : String) (t u : RatingsTable) :
    ratingCountFor id (t ++ u) = ratingCountFor id t + ratingCountFor id u := by
  simp [ratingCountFor, List.filter_append]

theorem samplesFor_append (id : String) (t u : RatingsTable) :
    samplesFor id (t ++ u) = samplesFor id t ++ samplesFor id u := by
  simp [samplesFor, List.filter_append]

theorem samplesFor_length (id : String) (t : RatingsTable) :
    (samplesFor id t).length = ratingCountFor id t := by
  simp [samplesFor, ratingCountFor]

/-! ## Claim theorems -/

/-- C5: calling `recordLaunch(X)` k times, arbitrarily interleaved with
calls for other ids, yields `launches[X] == previous_value + k`; the
increment is the single upsert-increment statement `incLaunch`, and each
call answers with the new count. -/
theorem launch_increments_accumulate (ops : List String) (t : Launches)
    (X : String) (hX : X ≠ "") :
    launchCount (applyLaunchOps ops t) X = launchCount t X + ops.count X ∧
    (launchHandler X t).1 = .ok (launchCount t X + 1) := by
  refine ⟨applyLaunchOps_count ops t X hX, ?_⟩
  simp [launchHandler, hX, launchCount_incLaunch]

/-- C5 witness: three interleaved calls, two of them for `app1`, on an
empty table. -/
theorem launch_increments_accumulate_witness :
    ("app1" : String) ≠ "" ∧
    (launchCount (applyLaunchOps ["app1", "other", "app1"] emptyLaunches) "app1" =
        launchCount emptyLaunches "app1" + (["app1", "other", "app1"].count "app1") ∧
      (launchHandler "app1" emptyLaunches).1 = .ok (launchCount emptyLaunches "app1" + 1)) :=
  ⟨by decide,
    launch_increments_accumulate ["app1", "other", "app1"] emptyLaunches "app1" (by decide)⟩

/-- C10: the launch endpoint validates nothing but non-emptiness: any
non-empty id — whether or not a project of that name exists, and even
with `..` or `/` inside — is accepted, a row keyed by the raw string is
created or incremented, and the response carries the new count. -/
theorem launch_accepts_any_nonempty_id (id : String) (t : Launches) (h : id ≠ "") :
    (launchHandler id t).1 = .ok (launchCount t id + 1) ∧
    ((launchHandler id t).2) id = some (launchCount t id + 1) ∧
    launchCount ((launchHandler id t).2) id = launchCount t id + 1 := by
  refine ⟨?_, ?_, ?_⟩ <;> simp [launchHandler, h, incLaunch, launchCount_incLaunch]

/-- C10 witness: a traversal-shaped id of a project that does not exist
is still recorded. -/
theorem launch_accepts_any_nonempty_id_witness :
    ("../not-a-project" : String) ≠ "" ∧
    ((launchHandler "../not-a-project" emptyLaunches).1 =
        .ok (launchCount emptyLaunches "../not-a-project" + 1) ∧
      ((launchHandler "../not-a-project" emptyLaunches).2) "../not-a-project" =
        some (launchCount emptyLaunches "../not-a-project" + 1) ∧
      launchCount ((launchHandler "../not-a-project" emptyLaunches).2) "../not-a-project" =
        launchCount emptyLaunches "../not-a-project" + 1) :=
  ⟨by decide, launch_accepts_any_nonempty_id "../not-a-project" emptyLaunches (by decide)⟩

/-- C1 counterexample: with one `app1` pipeline already in flight, a
second `build(app1)` call does not receive Conflict — it passes both
guards, answers `started`, and a second process for `app1` is spawned
(the in-flight count rises to 2). -/
theorem build_no_single_flight_cex :
    (handleBuild true "app1" oneInflight).1 = .started ∧
    (handleBuild true "app1" oneInflight).1 ≠ .conflict ∧
    (handleBuild true "app1" oneInflight).2 "app1" = 2 := by
  decide

/-- C1 amended: the build handler keeps no in-flight bookkeeping, so a
`build(X)` call made while a build of X is running is treated like any
other: if the directory exists and the id has no unsafe token it answers
`started` — never Conflict — and one more pipeline process for X runs. -/
theorem build_second_call_also_starts (id : String) (inflight : String → Nat)
    (h : hasUnsafeToken id = false) :
    (handleBuild true id inflight).1 = .started ∧
    (handleBuild true id inflight).1 ≠ .conflict ∧
    (handleBuild true id inflight).2 id = inflight id + 1 := by
  refine ⟨?_, ?_, ?_⟩ <;> simp [handleBuild, buildCheck, h]

/-- C1 amended witness: a second `build(app1)` while one is in flight. -/
theorem build_second_call_also_starts_witness :
    hasUnsafeToken "app1" = false ∧
    ((handleBuild true "app1" oneInflight).1 = .started ∧
      (handleBuild true "app1" oneInflight).1 ≠ .conflict ∧
      (handleBuild true "app1" oneInflight).2 "app1" = oneInflight "app1" + 1) :=
  ⟨by decide, build_second_call_also_starts "app1" oneInflight (by decide)⟩

/-- C4 counterexample: `../ghost` contains a parent-directory token, yet
when the path joined from it does not exist the handler answers NotFound
(404), not InvalidInput (400): the existence check runs first. -/
theorem build_traversal_notfound_cex :
    hasUnsafeToken "../ghost" = true ∧
    buildCheck false "../ghost" = .notFound ∧
    buildCheck false "../ghost" ≠ .invalidInput := by
  decide

/-- C4 amended: an id with `..` or a separator receives InvalidInput only
when the path joined from it exists; when that path does not exist the
answer is NotFound, and NotFound is answered exactly when the joined path
does not exist. -/
theorem build_traversal_check_after_existence (id : String)
    (h : hasUnsafeToken id = true) :
    buildCheck true id = .invalidInput ∧
    buildCheck false id = .notFound ∧
    ∀ (d : Bool) (j : String), (buildCheck d j = .notFound ↔ d = false) := by
  refine ⟨by simp [buildCheck, h], rfl, ?_⟩
  intro d j
  cases d
  · simp [buildCheck]
  · by_cases hj : hasUnsafeToken j = true <;> simp [buildCheck, hj]

/-- C4 amended witness: the id `a/b` with the directory existing and
missing. -/
theorem build_traversal_check_after_existence_witness :
    hasUnsafeToken "a/b" = true ∧
    (buildCheck true "a/b" = .invalidInput ∧
      buildCheck false "a/b" = .notFound ∧
      ∀ (d : Bool) (j : String), (buildCheck d j = .notFound ↔ d = false)) :=
  ⟨by decide, build_traversal_check_after_existence "a/b" (by decide)⟩

/-- C2: the claim that every online value reported to a client is the
`sessions` table count recomputed at report time fails. After a restart
over a database that kept an open session row, `runtimeOnline` is 0; the
`stats-changed` push triggered by `POST /api/launch/app1` reports that
cached 0 while `GET /api/stats` recomputes 1 from the table. -/
theorem stats_push_reports_cached_online :
    statsChangedPushOnline (serverLaunch "app1" staleStartupState) = 0 ∧
    statsEndpointOnline (serverLaunch "app1" staleStartupState) = 1 ∧
    statsChangedPushOnline (serverLaunch "app1" staleStartupState) ≠
      statsEndpointOnline (serverLaunch "app1" staleStartupState) := by
  decide

/-- C3: the startup sequence performs no sweep of the `sessions` table:
a row left with `disconnected_at` NULL by the previous run is still open
after startup, so the online count observed immediately after startup is
1, not 0. -/
theorem startup_leaves_stale_sessions_open :
    staleStartupState.sessions = [⟨"s1", none⟩] ∧
    countOnline staleStartupState.sessions = 1 ∧
    countOnline staleStartupState.sessions ≠ 0 := by
  decide

/-- Auxiliary characterisation of the counter import: the value of a row
after `importCounters` is the last legacy entry for that id, if any, and
the prior row otherwise. -/
theorem importCounters_apply (es : List (String × Nat)) (t : Launches) (y : String) :
    importCounters es t y =
      match es.reverse.find? (fun kv => kv.1 == y) with
      | some kv => some kv.2
      | none => t y := by
  induction es generalizing t with
  | nil => simp [importCounters]
  | cons kv es ih =>
    have hstep : importCounters (kv :: es) t =
        importCounters es (fun z => if z = kv.1 then some kv.2 else t z) := rfl
    rw [hstep, ih]
    have hrev : (kv :: es).reverse = es.reverse ++ [kv] := by simp
    rw [hrev, List.find?_append]
    cases hfind : es.reverse.find? (fun p => p.1 == y) with
    | some kv2 => simp [hfind]
    | none =>
      simp only [hfind, Option.none_or]
      by_cases hy : kv.1 = y
      · simp [List.find?, hy]
      · have hy2 : ¬y = kv.1 := fun h => hy h.symm
        have hbeq : (kv.1 == y) = false := by simp [hy]
        simp [List.find?, hbeq, hy2]

/-- C8: the legacy `state.json` migration imports counters with replace
semantics, so re-running the counter import over the same parsed state is
idempotent; the rating import appends the legacy samples again on a
re-run (shown in general and on a one-sample state, where the table after
two runs differs from the table after one); after a successful import the
file is removed. -/
theorem migration_replace_idempotent_append_not (es : List (String × Nat))
    (t : Launches) (rs : List (String × List ℚ)) (rt : RatingsTable)
    (s : LegacyState) (lt0 : Launches) (rt0 : RatingsTable) :
    importCounters es (importCounters es t) = importCounters es t ∧
    importRatings rs (importRatings rs rt) = importRatings rs rt ++ legacySamples rs ∧
    importRatings [("p", [(4 : ℚ)])] (importRatings [("p", [(4 : ℚ)])] []) ≠
      importRatings [("p", [(4 : ℚ)])] [] ∧
    (migrateStartup (.parsed s) lt0 rt0).1 = .absent := by
  refine ⟨?_, rfl, ?_, rfl⟩
  · funext y
    rw [importCounters_apply, importCounters_apply]
    cases hfind : es.reverse.find? (fun p => p.1 == y) with
    | some kv => simp
    | none => simp [importCounters_apply, hfind]
  · intro h
    have := congrArg List.length h
    simp [importRatings, legacySamples] at this

/-- C9: a per-project metadata read failure — `metadata.json` present
but failing to parse, or `metadata.json` absent and `package.json`
present but failing to parse — neither aborts the scan nor drops the
project: the scan still lists one descriptor per directory entry, and
the failing entry is listed with its directory name and the default
description. -/
theorem scan_survives_metadata_failure (entries : List DirEntry) (e : DirEntry)
    (h1 : e ∈ entries)
    (h2 : e.metadataFile = .unparsable ∨
      (e.metadataFile = .absent ∧ e.packageFile = .unparsable)) :
    (scanProjects entries).length = entries.length ∧
    projectOf e ∈ scanProjects entries ∧
    (projectOf e).id = e.dirName ∧
    (projectOf e).name = e.dirName ∧
    (projectOf e).description = "No description" := by
  have hmeta : (projectOf e).name = e.dirName ∧
      (projectOf e).description = "No description" := by
    rcases h2 with h2 | ⟨h2, h3⟩
    · constructor <;> simp [projectOf, h2]
    · constructor <;> simp [projectOf, h2, h3]
  exact ⟨by simp [scanProjects], List.mem_map_of_mem _ h1,
    by simp [projectOf], hmeta.1, hmeta.2⟩

/-- C9 witness: a two-entry directory exercising both failure modes — one
entry whose `metadata.json` fails to parse, one entry without
`metadata.json` whose `package.json` fails to parse. -/
theorem scan_survives_metadata_failure_witness :
    (entryMetaFail ∈ [entryMetaFail, entryPkgFail] ∧
      (entryMetaFail.metadataFile = .unparsable ∨
        (entryMetaFail.metadataFile = .absent ∧
          entryMetaFail.packageFile = .unparsable)) ∧
      ((scanProjects [entryMetaFail, entryPkgFail]).length =
          ([entryMetaFail, entryPkgFail] : List DirEntry).length ∧
        projectOf entryMetaFail ∈ scanProjects [entryMetaFail, entryPkgFail] ∧
        (projectOf entryMetaFail).id = entryMetaFail.dirName ∧
        (projectOf entryMetaFail).name = entryMetaFail.dirName ∧
        (projectOf entryMetaFail).description = "No description")) ∧
    (entryPkgFail ∈ [entryMetaFail, entryPkgFail] ∧
      (entryPkgFail.metadataFile = .unparsable ∨
        (entryPkgFail.metadataFile = .absent ∧
          entryPkgFail.packageFile = .unparsable)) ∧
      ((scanProjects [entryMetaFail, entryPkgFail]).length =
          ([entryMetaFail, entryPkgFail] : List DirEntry).length ∧
        projectOf entryPkgFail ∈ scanProjects [entryMetaFail, entryPkgFail] ∧
        (projectOf entryPkgFail).id = entryPkgFail.dirName ∧
        (projectOf entryPkgFail).name = entryPkgFail.dirName ∧
        (projectOf entryPkgFail).description = "No description")) :=
  ⟨⟨by decide, by decide,
      scan_survives_metadata_failure [entryMetaFail, entryPkgFail] entryMetaFail
        (by decide) (by decide)⟩,
    ⟨by decide, by decide,
      scan_survives_metadata_failure [entryMetaFail, entryPkgFail] entryPkgFail
        (by decide) (by decide)⟩⟩


/-- Auxiliary: the handler's rejection guard `rating < 0 || rating > 5`
negated is exactly the in-range condition of the specification. -/
theorem not_out_of_range_iff (q : ℚ) : ¬(q < 0 ∨ 5 < q) ↔ 0 ≤ q ∧ q ≤ 5 := by
  constructor
  · intro h
    exact ⟨le_of_not_lt (fun hh => h (Or.inl hh)), le_of_not_lt (fun hh => h (Or.inr hh))⟩
  · rintro ⟨h0, h5⟩ (h | h)
    · exact absurd h (not_lt.mpr h0)
    · exact absurd h (not_lt.mpr h5)

/-- C6: for a non-empty id, the rate handler answers 400 exactly when the
value is not a number in `[0,5]`; a rejection leaves the table (and hence
the id's count) unchanged, and an accepted value appends exactly one
sample, raising the id's count by one. -/
theorem rate_validation_bounds (id : String) (v : Option ℚ) (t : RatingsTable)
    (h : id ≠ "") :
    ((rateHandler id v t).1 = .invalid ↔ ¬ ∃ q, v = some q ∧ 0 ≤ q ∧ q ≤ 5) ∧
    ((rateHandler id v t).1 = .invalid → (rateHandler id v t).2 = t) ∧
    (∀ q, v = some q → 0 ≤ q → q ≤ 5 →
      (rateHandler id v t).2 = t ++ [(id, q)] ∧
      ratingCountFor id ((rateHandler id v t).2) = ratingCountFor id t + 1) := by
  cases v with
  | none =>
    refine ⟨by simp [rateHandler, h], fun _ => by simp [rateHandler, h], ?_⟩
    intro q hq
    simp at hq
  | some q =>
    by_cases hq : q < 0 ∨ 5 < q
    · have hresp : (rateHandler id (some q) t).1 = .invalid := by
        simp [rateHandler, h, hq]
      have htbl : (rateHandler id (some q) t).2 = t := by
        simp [rateHandler, h, hq]
      refine ⟨?_, fun _ => htbl, ?_⟩
      · constructor
        · rintro - ⟨q2, hq2, h0, h5⟩
          injection hq2 with he
          subst he
          exact (not_out_of_range_iff q).mpr ⟨h0, h5⟩ hq
        · intro _
          exact hresp
      · intro q2 hq2 h0 h5
        injection hq2 with he
        subst he
        exact absurd hq ((not_out_of_range_iff q).mpr ⟨h0, h5⟩)
    · have hresp : (rateHandler id (some q) t).1 =
          .ok (ratingCountFor id (t ++ [(id, q)])) := by
        simp [rateHandler, h, hq]
      have htbl : (rateHandler id (some q) t).2 = t ++ [(id, q)] := by
        simp [rateHandler, h, hq]
      have hio := (not_out_of_range_iff q).mp hq
      refine ⟨?_, ?_, ?_⟩
      · rw [hresp]
        constructor
        · intro hbad
          exact RateResp.noConfusion hbad
        · intro hno
          exact absurd ⟨q, rfl, hio.1, hio.2⟩ hno
      · intro hbad
        rw [hresp] at hbad
        exact RateResp.noConfusion hbad
      · intro q2 hq2 h0 h5
        injection hq2 with he
        subst he
        refine ⟨htbl, ?_⟩
        rw [htbl, ratingCountFor_append]
        simp [ratingCountFor]

/-- C6 witness: the id `game` with the in-range value 3 over a one-row
table. -/
theorem rate_validation_bounds_witness :
    ("game" : String) ≠ "" ∧
    (((rateHandler "game" (some 3) [("game", 5)]).1 = .invalid ↔
        ¬ ∃ q, (some 3 : Option ℚ) = some q ∧ 0 ≤ q ∧ q ≤ 5) ∧
      ((rateHandler "game" (some 3) [("game", 5)]).1 = .invalid →
        (rateHandler "game" (some 3) [("game", 5)]).2 = [("game", 5)]) ∧
      (∀ q, (some 3 : Option ℚ) = some q → 0 ≤ q → q ≤ 5 →
        (rateHandler "game" (some 3) [("game", 5)]).2 = [("game", 5)] ++ [("game", q)] ∧
        ratingCountFor "game" ((rateHandler "game" (some 3) [("game", 5)]).2) =
          ratingCountFor "game" [("game", 5)] + 1)) :=
  ⟨by decide, rate_validation_bounds "game" (some 3) [("game", 5)] (by decide)⟩

/-- Auxiliary step for the rating pipeline: one `POST /api/rate` call
extends the stored samples of `id` by exactly the values the handler
accepts for `id` out of that call. -/
theorem rateHandler_samples_step (id : String) (r : String × Option ℚ)
    (t : RatingsTable) (hid : id ≠ "") :
    samplesFor id ((rateHandler r.1 r.2 t).2) =
      samplesFor id t ++ acceptedFor id [r] := by
  obtain ⟨rid, rv⟩ := r
  by_cases h0 : rid = ""
  · subst h0
    have hne : ¬("" : String) = id := fun hh => hid hh.symm
    cases rv with
    | none => simp [rateHandler, acceptedFor]
    | some q => simp [rateHandler, acceptedFor, hne]
  · cases rv with
    | none => simp [rateHandler, h0, acceptedFor]
    | some q =>
      by_cases hq : q < 0 ∨ 5 < q
      · have hcond : ¬(rid = id ∧ 0 ≤ q ∧ q ≤ 5) := by
          rintro ⟨-, h0q, h5q⟩
          exact (not_out_of_range_iff q).mpr ⟨h0q, h5q⟩ hq
        simp [rateHandler, h0, hq, acceptedFor, hcond]
      · have hio := (not_out_of_range_iff q).mp hq
        by_cases hr : rid = id
        · subst hr
          simp [rateHandler, h0, hq, acceptedFor, samplesFor_append,
            samplesFor, hio.1, hio.2]
        · have hr2 : ¬id = rid := fun hh => hr hh.symm
          simp [rateHandler, h0, hq, acceptedFor, samplesFor_append,
            samplesFor, hr, hr2]

/-- Auxiliary: the accepted values of a request sequence decompose along
`cons`. -/
theorem acceptedFor_cons (id : String) (r : String × Option ℚ)
    (reqs : List (String × Option ℚ)) :
    acceptedFor id (r :: reqs) = acceptedFor id [r] ++ acceptedFor id reqs := by
  obtain ⟨rid, rv⟩ := r
  cases rv with
  | none => simp [acceptedFor]
  | some q =>
    by_cases hc : rid = id ∧ 0 ≤ q ∧ q ≤ 5 <;> simp [acceptedFor, hc]

/-- Auxiliary: the stored samples of an id after a request sequence are
the prior samples followed by the accepted values of the sequence. -/
theorem applyRateOps_samples (reqs : List (String × Option ℚ)) (t : RatingsTable)
    (id : String) (hid : id ≠ "") :
    samplesFor id (applyRateOps reqs t) = samplesFor id t ++ acceptedFor id reqs := by
  induction reqs generalizing t with
  | nil => simp [applyRateOps, acceptedFor]
  | cons r reqs ih =>
    have h1 : applyRateOps (r :: reqs) t =
        applyRateOps reqs ((rateHandler r.1 r.2 t).2) := rfl
    rw [h1, ih, rateHandler_samples_step id r t hid, List.append_assoc,
      ← acceptedFor_cons]

/-- C7: whenever at least one rating was accepted for an id, the snapshot
aggregate `AVG(rating)` equals the arithmetic mean of all accepted values
and `COUNT(*)` equals their number; in particular, submitting 4 then 2
for a fresh id yields average 3 and count 2. -/
theorem rating_average_is_arith_mean (reqs : List (String × Option ℚ)) (id : String)
    (h1 : id ≠ "") (h2 : acceptedFor id reqs ≠ []) :
    ratingAvg id (applyRateOps reqs []) = arithMean (acceptedFor id reqs) ∧
    ratingCountFor id (applyRateOps reqs []) = (acceptedFor id reqs).length ∧
    ratingAvg "p1" (applyRateOps [("p1", some 4), ("p1", some 2)] []) = 3 ∧
    ratingCountFor "p1" (applyRateOps [("p1", some 4), ("p1", some 2)] []) = 2 := by
  have hs := applyRateOps_samples reqs [] id h1
  have hempty : samplesFor id ([] : RatingsTable) = [] := rfl
  rw [hempty, List.nil_append] at hs
  have hconc : applyRateOps [("p1", some 4), ("p1", some 2)] [] =
      [("p1", (4 : ℚ)), ("p1", (2 : ℚ))] := by decide
  have hsamp : samplesFor "p1" [("p1", (4 : ℚ)), ("p1", (2 : ℚ))] =
      [(4 : ℚ), (2 : ℚ)] := by decide
  have hcnt : ratingCountFor "p1" [("p1", (4 : ℚ)), ("p1", (2 : ℚ))] = 2 := by decide
  refine ⟨?_, ?_, ?_, ?_⟩
  · rw [ratingAvg, arithMean, hs]
  · rw [← samplesFor_length, hs]
  · rw [hconc, ratingAvg, hsamp]
    norm_num
  · rw [hconc, hcnt]

/-- C7 witness: the 4-then-2 submission sequence for the fresh id `p1`. -/
theorem rating_average_is_arith_mean_witness :
    ("p1" : String) ≠ "" ∧
    acceptedFor "p1" [("p1", some 4), ("p1", some 2)] ≠ [] ∧
    (ratingAvg "p1" (applyRateOps [("p1", some 4), ("p1", some 2)] []) =
        arithMean (acceptedFor "p1" [("p1", some 4), ("p1", some 2)]) ∧
      ratingCountFor "p1" (applyRateOps [("p1", some 4), ("p1", some 2)] []) =
        (acceptedFor "p1" [("p1", some 4), ("p1", some 2)]).length ∧
      ratingAvg "p1" (applyRateOps [("p1", some 4), ("p1", some 2)] []) = 3 ∧
      ratingCountFor "p1" (applyRateOps [("p1", some 4), ("p1", some 2)] []) = 2) :=
  ⟨by decide, by decide,
    rating_average_is_arith_mean [("p1", some 4), ("p1", some 2)] "p1"
      (by decide) (by decide)⟩

end AppRunner
